import Mathlib

set_option autoImplicit false

/-!
Verification of the snapshot-diff and incremental-delta core of the
notion-change-detector repository, as a shallow embedding in Lean.

The embedding covers:
* `src/notion/differ.ts` — `NotionDiffer.detectPageChanges` and its helpers
  (`hasPageChanged`, `hasPropertiesChanged`, `getPropertyChanges`,
  `areValuesEqual`, `extractPageTitle`);
* `scripts/notion/github-actions/state-comparison.ts` —
  `StateComparison.calculateSingleDatabaseDelta` and
  `StateComparison.calculateMultiDatabaseDelta`;
* the typed `PropertyExtractor` (`extractProperties` / `extractPropertyValue`)
  from `src/notion/database.ts`.

JavaScript runtime values that can appear in a normalized property map are
modeled by the closed type `JsValue`; `undefined` is a first-class value
(`JsValue.vUndef`) because the source distinguishes it from `null` in some
places and conflates the two in others, and several claims hinge on exactly
that distinction.  JS objects are modeled as insertion-ordered association
lists (JS string-keyed objects preserve insertion order and have unique keys).
-/

/-- A JavaScript runtime value, restricted to the shapes that can flow through
the differ and the property extractor: `undefined`, `null`, booleans, numbers
(integers suffice for every value the source manipulates), strings, arrays and
plain objects. -/
inductive JsValue where
  | vUndef
  | vNull
  | vBool (b : Bool)
  | vNum (n : Int)
  | vStr (s : String)
  | vArr (elems : List JsValue)
  | vObj (fields : List (String × JsValue))


/-- JS `value == null`: true exactly for `null` and `undefined`. -/
def jsNullish : JsValue → Bool
  | JsValue.vUndef => true
  | JsValue.vNull => true
  | _ => false

/-- JS truthiness test (`!value` negated): `undefined`, `null`, `false`, `0`
and `""` are falsy; everything else (including `[]` and objects) is truthy. -/
def jsTruthy : JsValue → Bool
  | JsValue.vUndef => false
  | JsValue.vNull => false
  | JsValue.vBool b => b
  | JsValue.vNum n => n != 0
  | JsValue.vStr s => s != ""
  | JsValue.vArr _ => true
  | JsValue.vObj _ => true

/-- JS `String.prototype.trim()` (whitespace from both ends), written by
structural recursion over the character list so that concrete instances reduce
definitionally. -/
def jsTrim (s : String) : String :=
  ⟨((s.data.dropWhile Char.isWhitespace).reverse.dropWhile Char.isWhitespace).reverse⟩

/-- Character-level escaping performed by `JSON.stringify` (quotes and
backslashes; no other escapable characters occur in the values this
development manipulates). -/
def jsonEscapeChars : List Char → List Char
  | [] => []
  | c :: cs =>
    if c = '\\' then '\\' :: '\\' :: jsonEscapeChars cs
    else if c = '\"' then '\\' :: '\"' :: jsonEscapeChars cs
    else c :: jsonEscapeChars cs

/-- String escaping performed by `JSON.stringify`. -/
def jsonEscape (s : String) : String :=
  ⟨jsonEscapeChars s.data⟩

mutual
/-- Model of `JSON.stringify(v)`: `none` models the JS result `undefined` (which is what
`JSON.stringify` returns on the input `undefined`); inside arrays `undefined`
renders as `null`, and object entries whose value is `undefined` are omitted. -/
def jsonStringify : JsValue → Option String
  | JsValue.vUndef => none
  | JsValue.vNull => some "null"
  | JsValue.vBool true => some "true"
  | JsValue.vBool false => some "false"
  | JsValue.vNum n => some (toString n)
  | JsValue.vStr s => some ("\"" ++ jsonEscape s ++ "\"")
  | JsValue.vArr elems =>
    some ("[" ++ String.intercalate "," (jsonStringifyElems elems) ++ "]")
  | JsValue.vObj fields =>
    some ("\x7b" ++ String.intercalate "," (jsonStringifyFields fields) ++ "\x7d")

def jsonStringifyElems : List JsValue → List String
  | [] => []
  | v :: vs =>
    (match jsonStringify v with
     | none => "null"
     | some s => s) :: jsonStringifyElems vs

def jsonStringifyFields : List (String × JsValue) → List String
  | [] => []
  | (k, v) :: fs =>
    match jsonStringify v with
    | none => jsonStringifyFields fs
    | some s => ("\"" ++ jsonEscape k ++ "\":" ++ s) :: jsonStringifyFields fs
end

/-- Model of `fields[key]` on a JS object: the stored value, or `undefined` when the key
is absent (JS object keys are unique, so first-match lookup is faithful). -/
def objGet (fields : List (String × JsValue)) (key : String) : JsValue :=
  match fields.lookup key with
  | some v => v
  | none => JsValue.vUndef

/-- Model of `Object.keys(fields)` in insertion order. -/
def objKeys (fields : List (String × JsValue)) : List String :=
  fields.map Prod.fst

/-- JS `key in fields`. -/
def objHasKey (fields : List (String × JsValue)) (key : String) : Bool :=
  (fields.map Prod.fst).contains key

/-- Model of `props?.[key]`: reading a property off an optional map; an absent map reads
as `undefined`, like an absent key. -/
def pageProp (props : Option (List (String × JsValue))) (key : String) : JsValue :=
  match props with
  | none => JsValue.vUndef
  | some fields => objGet fields key

/-- Iteration order of `new Set(keys)`: first occurrence of each key, duplicates
dropped. -/
def setOrderedKeys (seen : List String) : List String → List String
  | [] => []
  | k :: ks =>
    if seen.contains k then setOrderedKeys seen ks
    else k :: setOrderedKeys (k :: seen) ks

/-! Section: The Snapshot Differ (`src/notion/differ.ts`) -/

/-- Model of `SimplePage` from `differ.ts`: `id`, `last_edited_time`, and an optional
normalized property map. -/
structure SimplePage where
  id : String
  last_edited_time : String
  properties : Option (List (String × JsValue))


/-- TS literal union `"added" | "updated" | "deleted"`. -/
inductive ChangeType where
  | added
  | updated
  | deleted
  deriving DecidableEq


/-- Model of `PropertyChange` from `differ.ts`. `previousValue` / `currentValue` are
`unknown` in TS and may be the JS value `undefined` (`JsValue.vUndef`). -/
structure PropertyChange where
  propertyName : String
  previousValue : JsValue
  currentValue : JsValue


/-- Model of `PageChange` from `differ.ts`, extended with the `initialProperties` member
declared by the consumer interface in `state-comparison.ts`.  The `differ.ts`
interface itself has no such member and `detectPageChanges` never writes it, so
records built by `detectPageChanges` carry `none` there — exactly the JS
`undefined` that `state-comparison.ts` observes when it reads
`change.initialProperties` off such a record. -/
structure PageChange where
  id : String
  title : String
  changeType : ChangeType
  last_edited_time : String
  previous_time : Option String
  propertyChanges : Option (List PropertyChange)
  initialProperties : Option (List (String × JsValue))


/-- The inline `summary` object type of `DatabaseChanges`. -/
structure ChangeSummary where
  added : Nat
  updated : Nat
  deleted : Nat


/-- Model of `DatabaseChanges` from `differ.ts`. -/
structure DatabaseChanges where
  databaseId : String
  databaseName : String
  changes : List PageChange
  summary : ChangeSummary


/-- Model of `NotionDiffer.areValuesEqual`: both nullish ⇒ equal; nullish on exactly one
side ⇒ different; otherwise compare `JSON.stringify` serializations.  (The
source's `catch` fallback to reference equality is dead for `JsValue` inputs:
`JSON.stringify` cannot throw on them.) -/
def areValuesEqual (value1 value2 : JsValue) : Bool :=
  if jsNullish value1 && jsNullish value2 then true
  else if jsNullish value1 != jsNullish value2 then false
  else jsonStringify value1 == jsonStringify value2

/-- Model of `NotionDiffer.hasPropertiesChanged`: shallow comparison of two optional
property maps — no maps ⇒ unchanged; exactly one map ⇒ changed; both present ⇒
changed iff the key counts differ, or some previous-side key is missing on the
current side or has a different `JSON.stringify` serialization. -/
def hasPropertiesChanged
    (previousProps currentProps : Option (List (String × JsValue))) : Bool :=
  match previousProps, currentProps with
  | none, none => false
  | none, some _ => true
  | some _, none => true
  | some prevFields, some currFields =>
    let prevKeys := objKeys prevFields
    let currKeys := objKeys currFields
    if prevKeys.length != currKeys.length then true
    else prevKeys.any (fun key =>
      if !objHasKey currFields key then true
      else jsonStringify (objGet prevFields key) != jsonStringify (objGet currFields key))

/-- Model of `NotionDiffer.hasPageChanged`: the revision marker (`last_edited_time`)
changed, or the property maps changed shallowly. -/
def hasPageChanged (previousPage currentPage : SimplePage) : Bool :=
  if currentPage.last_edited_time != previousPage.last_edited_time then true
  else hasPropertiesChanged previousPage.properties currentPage.properties

/-- Second half of `NotionDiffer.extractPageTitle`: the `Title` fallback. -/
def extractTitleOr (fields : List (String × JsValue)) (fallbackId : String) : String :=
  match objGet fields "Title" with
  | JsValue.vStr s => if jsTrim s != "" then s else fallbackId
  | _ => fallbackId

/-- Model of `NotionDiffer.extractPageTitle`: a non-blank string-valued `Name` property,
else a non-blank string-valued `Title` property, else the page id. -/
def extractPageTitle (page : SimplePage) : String :=
  match page.properties with
  | none => page.id
  | some fields =>
    match objGet fields "Name" with
    | JsValue.vStr s => if jsTrim s != "" then s else extractTitleOr fields page.id
    | _ => extractTitleOr fields page.id

/-- Model of `NotionDiffer.getPropertyChanges`: iterate the set-union of both key lists
(first-occurrence order) and emit one `PropertyChange` per key whose two values
are not `areValuesEqual`. -/
def getPropertyChanges (previousPage currentPage : SimplePage) : List PropertyChange :=
  match previousPage.properties, currentPage.properties with
  | none, none => []
  | _, _ =>
    let allPropertyKeys := setOrderedKeys []
      (objKeys (previousPage.properties.getD []) ++ objKeys (currentPage.properties.getD []))
    allPropertyKeys.filterMap (fun propertyName =>
      let previousValue := pageProp previousPage.properties propertyName
      let currentValue := pageProp currentPage.properties propertyName
      if areValuesEqual previousValue currentValue then none
      else some ⟨propertyName, previousValue, currentValue⟩)

/-- Model of `new Map(pages.map(p => [p.id, p])).get(id)`: later entries overwrite
earlier ones, so the last page with a matching id wins. -/
def pagesMapGet (pages : List SimplePage) (id : String) : Option SimplePage :=
  pages.reverse.find? (fun p => p.id == id)

/-- Model of `new Map(pages.map(p => [p.id, p])).has(id)`. -/
def pagesMapHas (pages : List SimplePage) (id : String) : Bool :=
  pages.any (fun p => p.id == id)

/-- The body of the first loop of `detectPageChanges` for one current page:
absent from the previous map ⇒ an `added` record; present and
`hasPageChanged` ⇒ an `updated` record with `previous_time` and
`propertyChanges`; otherwise no record. -/
def currentSideRecord (previousPages : List SimplePage) (currentPage : SimplePage) :
    Option PageChange :=
  match pagesMapGet previousPages currentPage.id with
  | none =>
    some { id := currentPage.id
         , title := extractPageTitle currentPage
         , changeType := ChangeType.added
         , last_edited_time := currentPage.last_edited_time
         , previous_time := none
         , propertyChanges := none
         , initialProperties := none }
  | some previousPage =>
    if hasPageChanged previousPage currentPage then
      some { id := currentPage.id
           , title := extractPageTitle currentPage
           , changeType := ChangeType.updated
           , last_edited_time := currentPage.last_edited_time
           , previous_time := some previousPage.last_edited_time
           , propertyChanges := some (getPropertyChanges previousPage currentPage)
           , initialProperties := none }
    else none

/-- The body of the second loop of `detectPageChanges` for one previous page:
absent from the current map ⇒ a `deleted` record (no field diff). -/
def deletedSideRecord (currentPages : List SimplePage) (previousPage : SimplePage) :
    Option PageChange :=
  if pagesMapHas currentPages previousPage.id then none
  else
    some { id := previousPage.id
         , title := extractPageTitle previousPage
         , changeType := ChangeType.deleted
         , last_edited_time := previousPage.last_edited_time
         , previous_time := none
         , propertyChanges := none
         , initialProperties := none }

/-- The `summary` computation of `detectPageChanges`: filter the combined list
once per kind and take lengths. -/
def tallySummary (changes : List PageChange) : ChangeSummary :=
  { added := (changes.filter (fun c => c.changeType == ChangeType.added)).length
  , updated := (changes.filter (fun c => c.changeType == ChangeType.updated)).length
  , deleted := (changes.filter (fun c => c.changeType == ChangeType.deleted)).length }

/-- Model of `NotionDiffer.detectPageChanges`: first loop over `currentPages` (added /
updated, in current iteration order), then loop over `previousPages` (deleted,
in previous iteration order), then tally the summary. -/
def detectPageChanges (previousPages currentPages : List SimplePage)
    (databaseId databaseName : String) : DatabaseChanges :=
  let changes :=
    currentPages.filterMap (currentSideRecord previousPages)
      ++ previousPages.filterMap (deletedSideRecord currentPages)
  { databaseId := databaseId
  , databaseName := databaseName
  , changes := changes
  , summary := tallySummary changes }

/-! Section: State comparison (`scripts/notion/github-actions/state-comparison.ts`) -/

/-- Model of `DatabaseState` (persisted snapshot shape, `storage/state-manager.ts`):
`lastSync` timestamp plus the page list. -/
structure DatabaseState where
  lastSync : String
  pages : List SimplePage

/-- Model of `StateDelta` from `state-comparison.ts`.  Its `changedPages` entries declare
exactly the members of `PageChange` (including `initialProperties`), so the
same structure is reused for them. -/
structure StateDelta where
  hasChanges : Bool
  databaseId : String
  databaseName : String
  changedPages : List PageChange
  summary : ChangeSummary

/-- Model of `MultiDatabaseStateDelta` from `state-comparison.ts`. -/
structure MultiDatabaseStateDelta where
  hasChanges : Bool
  deltas : List StateDelta
  totalChanges : ChangeSummary

/-- Modelled from the spec: `NotionDiffer.comparePages`, the scripts-side differ
method invoked by `StateComparison.calculateSingleDatabaseDelta`.  The
scripts-side copy of the differ (`scripts/notion/differ.ts`) is not among the
sources — only its caller (`state-comparison.ts`), its tests and the markdown
consumers are.  Per spec §4.4 the incremental path "reuses the Snapshot Differ
algorithm verbatim", and per spec §3/§4.3 an `added` ChangeRecord additionally
carries `initial_fields` — "full normalized field map at discovery time" —
surfaced as `initialProperties` in the caller's declared record shape (and
asserted by the repository's differ tests).  So this definition is
`detectPageChanges` with the one addition that the `added` branch also stores
`initialProperties := currentPage.properties`. -/
def currentSideRecordWithInitial (previousPages : List SimplePage)
    (currentPage : SimplePage) : Option PageChange :=
  match pagesMapGet previousPages currentPage.id with
  | none =>
    some { id := currentPage.id
         , title := extractPageTitle currentPage
         , changeType := ChangeType.added
         , last_edited_time := currentPage.last_edited_time
         , previous_time := none
         , propertyChanges := none
         , initialProperties := currentPage.properties }
  | some previousPage =>
    if hasPageChanged previousPage currentPage then
      some { id := currentPage.id
           , title := extractPageTitle currentPage
           , changeType := ChangeType.updated
           , last_edited_time := currentPage.last_edited_time
           , previous_time := some previousPage.last_edited_time
           , propertyChanges := some (getPropertyChanges previousPage currentPage)
           , initialProperties := none }
    else none

/-- Modelled from the spec (see `currentSideRecordWithInitial` above): the
scripts-side differ entry point, structurally `detectPageChanges` with the
added-branch enrichment. -/
def comparePages (previousPages currentPages : List SimplePage)
    (databaseId databaseName : String) : DatabaseChanges :=
  let changes :=
    currentPages.filterMap (currentSideRecordWithInitial previousPages)
      ++ previousPages.filterMap (deletedSideRecord currentPages)
  { databaseId := databaseId
  , databaseName := databaseName
  , changes := changes
  , summary := tallySummary changes }

/-- Model of `previousState?.pages || []`: the empty page list for a `null` previous
state, else its page list (a present `pages` array is always truthy in JS,
even when empty). -/
def prevPagesOf (previousState : Option DatabaseState) : List SimplePage :=
  match previousState with
  | none => []
  | some s => s.pages

/-- Model of `StateComparison.calculateSingleDatabaseDelta`: a `null` previous state
(first run) contributes the empty page list (`previousState?.pages || []`);
the differ output is re-wrapped field by field into a `StateDelta` with
`hasChanges = changes.changes.length > 0`. -/
def calculateSingleDatabaseDelta (databaseId databaseName : String)
    (previousState : Option DatabaseState) (currentState : DatabaseState) : StateDelta :=
  let changes := comparePages (prevPagesOf previousState) currentState.pages databaseId databaseName
  { hasChanges := changes.changes.length > 0
  , databaseId := databaseId
  , databaseName := databaseName
  , changedPages := changes.changes.map (fun change =>
      { id := change.id
      , changeType := change.changeType
      , title := change.title
      , last_edited_time := change.last_edited_time
      , previous_time := change.previous_time
      , propertyChanges := change.propertyChanges
      , initialProperties := change.initialProperties })
  , summary := changes.summary }

/-- Model of `previousStates[databaseId] || null` on a JS record keyed by database id. -/
def stateFor (states : List (String × DatabaseState)) (databaseId : String) :
    Option DatabaseState :=
  states.lookup databaseId

/-- Model of `databaseNames[databaseId] || `Database ${databaseId}``: the stored name,
unless it is absent or falsy (the empty string). -/
def nameFor (databaseNames : List (String × String)) (databaseId : String) : String :=
  match databaseNames.lookup databaseId with
  | some n => if n != "" then n else "Database " ++ databaseId
  | none => "Database " ++ databaseId

/-- The loop body of `calculateMultiDatabaseDelta` for one
`Object.entries(currentStates)` entry: compute the single delta against
`previousStates[databaseId] || null`, and accumulate it only when it has
changes. -/
def multiDeltaStep (previousStates : List (String × DatabaseState))
    (databaseNames : List (String × String))
    (acc : List StateDelta × Nat × Nat × Nat) (entry : String × DatabaseState) :
    List StateDelta × Nat × Nat × Nat :=
  let delta := calculateSingleDatabaseDelta entry.fst (nameFor databaseNames entry.fst)
    (stateFor previousStates entry.fst) entry.snd
  if delta.hasChanges then
    (acc.1 ++ [delta], acc.2.1 + delta.summary.added, acc.2.2.1 + delta.summary.updated,
      acc.2.2.2 + delta.summary.deleted)
  else acc

/-- Model of `StateComparison.calculateMultiDatabaseDelta`: iterate
`Object.entries(currentStates)`; per current-side entry compute the single
delta against `previousStates[databaseId] || null`; keep only deltas with
`hasChanges` and accumulate the summary totals. -/
def calculateMultiDatabaseDelta
    (previousStates currentStates : List (String × DatabaseState))
    (databaseNames : List (String × String)) : MultiDatabaseStateDelta :=
  let acc := currentStates.foldl (multiDeltaStep previousStates databaseNames)
    (([] : List StateDelta), (0 : Nat), (0 : Nat), (0 : Nat))
  { hasChanges := acc.1.length > 0
  , deltas := acc.1
  , totalChanges := { added := acc.2.1, updated := acc.2.2.1, deleted := acc.2.2.2 } }

/-! Section: Property normalizer (`PropertyExtractor` in `src/notion/database.ts`)

The extractor is embedded as an `Except`-valued function: `.error` models a
thrown `TypeError`.  The typed extractor dereferences several payloads without
optional chaining (`property.relation.map(...)`, `property.multi_select.map`,
`property.people.map`, `property.created_by.id`, `property.last_edited_by.id`,
and `.map` / element accesses inside list payloads), so a malformed property
value reaching one of those spots throws at runtime. -/

mutual
/-- JS `String(v)` as applied by `Array.prototype.join` to an element
(nullish elements render as the empty string; arrays join recursively with
commas; plain objects render as `[object Object]`). -/
def jsJoinString : JsValue → String
  | JsValue.vUndef => ""
  | JsValue.vNull => ""
  | JsValue.vBool true => "true"
  | JsValue.vBool false => "false"
  | JsValue.vNum n => toString n
  | JsValue.vStr s => s
  | JsValue.vArr elems => String.intercalate "," (jsJoinStrings elems)
  | JsValue.vObj _ => "[object Object]"

def jsJoinStrings : List JsValue → List String
  | [] => []
  | v :: vs => jsJoinString v :: jsJoinStrings vs
end

/-- Model of `item.plain_text || ""` for one run of a title / rich-text payload, coerced
by `join`: throws on a nullish item; a primitive item reads `plain_text` as
`undefined` and degrades to `""`. -/
def itemPlainText (item : JsValue) : Except String String :=
  match item with
  | JsValue.vUndef => Except.error "TypeError: cannot read plain_text of undefined"
  | JsValue.vNull => Except.error "TypeError: cannot read plain_text of null"
  | JsValue.vObj fs =>
    let v := objGet fs "plain_text"
    Except.ok (jsJoinString (if jsTruthy v then v else JsValue.vStr ""))
  | _ => Except.ok ""

/-- Model of `titleArray.map(item => item.plain_text || "")` evaluated left to right. -/
def itemsPlainTexts : List JsValue → Except String (List String)
  | [] => Except.ok []
  | item :: rest => do
    let s ← itemPlainText item
    let ss ← itemsPlainTexts rest
    Except.ok (s :: ss)

/-- Model of `PropertyExtractor.extractTitleValue`: falsy or empty payload ⇒ `""`; an
array payload joins the runs' `plain_text` and trims; a truthy non-array
payload reaches `.map` and throws. -/
def extractTitleValue (titleArray : JsValue) : Except String JsValue :=
  if !jsTruthy titleArray then Except.ok (JsValue.vStr "")
  else
    match titleArray with
    | JsValue.vArr [] => Except.ok (JsValue.vStr "")
    | JsValue.vArr items => do
      let parts ← itemsPlainTexts items
      Except.ok (JsValue.vStr (jsTrim (String.join parts)))
    | _ => Except.error "TypeError: titleArray.map is not a function"

/-- Model of `PropertyExtractor.extractRichTextValue`: the source body is identical to
`extractTitleValue`, only the parameter is the `rich_text` payload. -/
def extractRichTextValue (richTextArray : JsValue) : Except String JsValue :=
  extractTitleValue richTextArray

/-- Model of `v?.name || null`-style access: `optFieldOr f v` is `v?.[f] || null` —
`null` for a nullish or primitive receiver or falsy member. -/
def optFieldOr (fieldName : String) (v : JsValue) : JsValue :=
  match v with
  | JsValue.vObj fs =>
    if jsTruthy (objGet fs fieldName) then objGet fs fieldName else JsValue.vNull
  | _ => JsValue.vNull

/-- Model of `arr.map(x => x.f)` element step, evaluated left to right: a nullish
element throws; a primitive element reads the member as `undefined`. -/
def jsMapFieldItems (fieldName : String) : List JsValue → Except String (List JsValue)
  | [] => Except.ok []
  | item :: rest =>
    match item with
    | JsValue.vUndef => Except.error "TypeError: cannot read member of undefined"
    | JsValue.vNull => Except.error "TypeError: cannot read member of null"
    | JsValue.vObj fs => do
      let tail ← jsMapFieldItems fieldName rest
      Except.ok (objGet fs fieldName :: tail)
    | _ => do
      let tail ← jsMapFieldItems fieldName rest
      Except.ok (JsValue.vUndef :: tail)

/-- Model of `arr.map(x => x.f)` with NO optional chaining on `arr` (the `relation`,
`multi_select` and `people` cases of the typed extractor): a nullish payload
throws (`cannot read map of ...`), and so does a truthy non-array payload. -/
def jsMapField (fieldName : String) (arr : JsValue) : Except String JsValue :=
  match arr with
  | JsValue.vUndef => Except.error "TypeError: cannot read map of undefined"
  | JsValue.vNull => Except.error "TypeError: cannot read map of null"
  | JsValue.vArr items => do
    let vals ← jsMapFieldItems fieldName items
    Except.ok (JsValue.vArr vals)
  | _ => Except.error "TypeError: arr.map is not a function"

/-- Model of `a || b || ... || dflt`: the first truthy value, else the default. -/
def firstTruthyOr (dflt : JsValue) : List JsValue → JsValue
  | [] => dflt
  | v :: vs => if jsTruthy v then v else firstTruthyOr dflt vs

/-- The per-element body of `rollup.array.map(item => ...)` for an object
item: dispatch on `item.type`, recursing into the title / rich-text / select
rules, else `item.plain_text || item.name || item.id || null`. -/
def rollupItemValue (ifs : List (String × JsValue)) : Except String JsValue :=
  match objGet ifs "type" with
  | JsValue.vStr "title" => extractTitleValue (objGet ifs "title")
  | JsValue.vStr "rich_text" => extractRichTextValue (objGet ifs "rich_text")
  | JsValue.vStr "select" => Except.ok (optFieldOr "name" (objGet ifs "select"))
  | _ =>
    Except.ok (firstTruthyOr JsValue.vNull
      [objGet ifs "plain_text", objGet ifs "name", objGet ifs "id"])

/-- Model of `rollup.array.map(item => ...)` evaluated left to right: a nullish item
throws on the `item.type` access, a primitive item falls through every
comparison to `null`, and an object item is handled by `rollupItemValue`. -/
def rollupItems : List JsValue → Except String (List JsValue)
  | [] => Except.ok []
  | item :: rest =>
    match item with
    | JsValue.vUndef => Except.error "TypeError: cannot read type of undefined"
    | JsValue.vNull => Except.error "TypeError: cannot read type of null"
    | JsValue.vObj ifs => do
      let head ← rollupItemValue ifs
      let tail ← rollupItems rest
      Except.ok (head :: tail)
    | _ => do
      let tail ← rollupItems rest
      Except.ok (JsValue.vNull :: tail)

/-- The `array` arm of `extractRollupValue`: falsy or empty `rollup.array` ⇒
`[]`; an array maps elements by `rollupItemValue` and drops falsy results
(`.filter(Boolean)`); a truthy non-array reaches `.map` and throws. -/
def extractRollupArray (rfs : List (String × JsValue)) : Except String JsValue :=
  if !jsTruthy (objGet rfs "array") then Except.ok (JsValue.vArr [])
  else
    match objGet rfs "array" with
    | JsValue.vArr [] => Except.ok (JsValue.vArr [])
    | JsValue.vArr items => do
      let vals ← rollupItems items
      Except.ok (JsValue.vArr (vals.filter jsTruthy))
    | _ => Except.error "TypeError: rollup.array.map is not a function"

/-- Model of `PropertyExtractor.extractRollupValue`: falsy rollup ⇒ `null`; `array`
rollups map each element by its element type and drop falsy results
(`.filter(Boolean)`); `number` passes through; `date` takes `date?.start ||
null`; any other computed type ⇒ `null`. -/
def extractRollupValue (rollup : JsValue) : Except String JsValue :=
  if !jsTruthy rollup then Except.ok JsValue.vNull
  else
    match rollup with
    | JsValue.vObj rfs =>
      match objGet rfs "type" with
      | JsValue.vStr "array" => extractRollupArray rfs
      | JsValue.vStr "number" => Except.ok (objGet rfs "number")
      | JsValue.vStr "date" => Except.ok (optFieldOr "start" (objGet rfs "date"))
      | _ => Except.ok JsValue.vNull
    | _ => Except.ok JsValue.vNull

/-- Model of `x?.url`: `undefined` for a nullish or primitive receiver. -/
def chainUrl (v : JsValue) : JsValue :=
  match v with
  | JsValue.vObj fs => objGet fs "url"
  | _ => JsValue.vUndef

/-- One file entry: `file.name || file.file?.url || file.external?.url || ""`;
throws on a nullish entry. -/
def fileEntryValue (file : JsValue) : Except String JsValue :=
  match file with
  | JsValue.vUndef => Except.error "TypeError: cannot read name of undefined"
  | JsValue.vNull => Except.error "TypeError: cannot read name of null"
  | JsValue.vObj ffs =>
    Except.ok (firstTruthyOr (JsValue.vStr "")
      [objGet ffs "name", chainUrl (objGet ffs "file"), chainUrl (objGet ffs "external")])
  | _ => Except.ok (JsValue.vStr "")

/-- Model of `filesArray.map(...)` evaluated left to right. -/
def fileEntryValues : List JsValue → Except String (List JsValue)
  | [] => Except.ok []
  | f :: rest => do
    let v ← fileEntryValue f
    let vs ← fileEntryValues rest
    Except.ok (v :: vs)

/-- Model of `PropertyExtractor.extractFilesValue`: falsy or empty payload ⇒ `[]`; an
array payload maps each entry to name-or-url and drops falsy entries
(`.filter(Boolean)`); a truthy non-array payload reaches `.map` and throws. -/
def extractFilesValue (filesArray : JsValue) : Except String JsValue :=
  if !jsTruthy filesArray then Except.ok (JsValue.vArr [])
  else
    match filesArray with
    | JsValue.vArr [] => Except.ok (JsValue.vArr [])
    | JsValue.vArr items => do
      let vals ← fileEntryValues items
      Except.ok (JsValue.vArr (vals.filter jsTruthy))
    | _ => Except.error "TypeError: filesArray.map is not a function"

/-- Model of `PropertyExtractor.extractFormulaValue`: falsy formula ⇒ `null`; dispatch
on the computed type, passing `string` / `number` / `boolean` through and
taking `date?.start || null` for dates; any other type ⇒ `null`. -/
def extractFormulaValue (formula : JsValue) : Except String JsValue :=
  if !jsTruthy formula then Except.ok JsValue.vNull
  else
    match formula with
    | JsValue.vObj ffs =>
      match objGet ffs "type" with
      | JsValue.vStr "string" => Except.ok (objGet ffs "string")
      | JsValue.vStr "number" => Except.ok (objGet ffs "number")
      | JsValue.vStr "boolean" => Except.ok (objGet ffs "boolean")
      | JsValue.vStr "date" => Except.ok (optFieldOr "start" (objGet ffs "date"))
      | _ => Except.ok JsValue.vNull
    | _ => Except.ok JsValue.vNull

/-- Model of `v.id` with NO optional chaining (the `created_by` / `last_edited_by`
cases): throws on a nullish receiver; a primitive receiver reads `undefined`. -/
def dotId (v : JsValue) : Except String JsValue :=
  match v with
  | JsValue.vUndef => Except.error "TypeError: cannot read id of undefined"
  | JsValue.vNull => Except.error "TypeError: cannot read id of null"
  | JsValue.vObj fs => Except.ok (objGet fs "id")
  | _ => Except.ok JsValue.vUndef

/-- The `switch (property.type)` of the typed extractor as the if-else chain
of strict string comparisons a JS switch performs, in source order; the final
else is the `default` arm returning `null` for unrecognized types. -/
def extractByTag (t : String) (fs : List (String × JsValue)) : Except String JsValue :=
  if t = "title" then extractTitleValue (objGet fs "title")
  else if t = "rich_text" then extractRichTextValue (objGet fs "rich_text")
  else if t = "select" then Except.ok (optFieldOr "name" (objGet fs "select"))
  else if t = "status" then Except.ok (optFieldOr "name" (objGet fs "status"))
  else if t = "relation" then jsMapField "id" (objGet fs "relation")
  else if t = "rollup" then extractRollupValue (objGet fs "rollup")
  else if t = "number" then Except.ok (objGet fs "number")
  else if t = "checkbox" then Except.ok (objGet fs "checkbox")
  else if t = "date" then Except.ok (optFieldOr "start" (objGet fs "date"))
  else if t = "url" then Except.ok (objGet fs "url")
  else if t = "email" then Except.ok (objGet fs "email")
  else if t = "phone_number" then Except.ok (objGet fs "phone_number")
  else if t = "multi_select" then jsMapField "name" (objGet fs "multi_select")
  else if t = "people" then jsMapField "id" (objGet fs "people")
  else if t = "files" then extractFilesValue (objGet fs "files")
  else if t = "formula" then extractFormulaValue (objGet fs "formula")
  else if t = "created_time" then Except.ok (objGet fs "created_time")
  else if t = "created_by" then dotId (objGet fs "created_by")
  else if t = "last_edited_time" then Except.ok (objGet fs "last_edited_time")
  else if t = "last_edited_by" then dotId (objGet fs "last_edited_by")
  else Except.ok JsValue.vNull

/-- The type dispatch of `extractPropertyValue`, reached once `property.type`
is truthy: string tags go through `extractByTag`; a truthy non-string tag
matches no `case` and falls to the `default` arm (`null`). -/
def extractTypedValue (fs : List (String × JsValue)) : Except String JsValue :=
  match objGet fs "type" with
  | JsValue.vStr t => extractByTag t fs
  | _ => Except.ok JsValue.vNull

/-- Model of `PropertyExtractor.extractPropertyValue` (the typed extractor of
`src/notion/database.ts`): `!property?.type` ⇒ `null` (nullish or primitive
property, or missing / falsy type tag); otherwise dispatch on the declared
type tag via `extractTypedValue`. -/
def extractPropertyValue (property : JsValue) : Except String JsValue :=
  match property with
  | JsValue.vObj fs =>
    if !jsTruthy (objGet fs "type") then Except.ok JsValue.vNull
    else extractTypedValue fs
  | _ => Except.ok JsValue.vNull

/-- Model of `PropertyExtractor.extractProperties`: absent / nullish `properties` ⇒ the
empty map; otherwise extract every entry in order (a thrown `TypeError` from
any entry propagates). -/
def extractProperties (properties : Option (List (String × JsValue))) :
    Except String (List (String × JsValue)) :=
  match properties with
  | none => Except.ok []
  | some fields => go fields
where
  go : List (String × JsValue) → Except String (List (String × JsValue))
    | [] => Except.ok []
    | (key, property) :: rest => do
      let v ← extractPropertyValue property
      let tail ← go rest
      Except.ok ((key, v) :: tail)

/-! Section: Helper lemmas -/

lemma pagesMapGet_nil (id : String) : pagesMapGet [] id = none := rfl

lemma currentSideRecord_nil (pg : SimplePage) :
    currentSideRecord [] pg
      = some ⟨pg.id, extractPageTitle pg, ChangeType.added, pg.last_edited_time,
          none, none, none⟩ := rfl

lemma deletedSideRecord_nil (pg : SimplePage) :
    deletedSideRecord [] pg
      = some ⟨pg.id, extractPageTitle pg, ChangeType.deleted, pg.last_edited_time,
          none, none, none⟩ := rfl

lemma detect_changes_eq (prev curr : List SimplePage) (db nm : String) :
    (detectPageChanges prev curr db nm).changes
      = curr.filterMap (currentSideRecord prev)
        ++ prev.filterMap (deletedSideRecord curr) := rfl

lemma detect_summary_eq (prev curr : List SimplePage) (db nm : String) :
    (detectPageChanges prev curr db nm).summary
      = tallySummary ((detectPageChanges prev curr db nm).changes) := rfl

lemma detect_nil_prev_changes (curr : List SimplePage) (db nm : String) :
    (detectPageChanges [] curr db nm).changes
      = curr.map (fun pg =>
          ⟨pg.id, extractPageTitle pg, ChangeType.added, pg.last_edited_time,
            none, none, none⟩) := by
  rw [detect_changes_eq]
  simp only [List.filterMap_nil, List.append_nil]
  induction curr with
  | nil => rfl
  | cons hd tl ih => simp [List.filterMap_cons, currentSideRecord_nil, ih]

lemma detect_nil_curr_changes (prev : List SimplePage) (db nm : String) :
    (detectPageChanges prev [] db nm).changes
      = prev.map (fun pg =>
          ⟨pg.id, extractPageTitle pg, ChangeType.deleted, pg.last_edited_time,
            none, none, none⟩) := by
  rw [detect_changes_eq]
  simp only [List.filterMap_nil, List.nil_append]
  induction prev with
  | nil => rfl
  | cons hd tl ih => simp [List.filterMap_cons, deletedSideRecord_nil, ih]

lemma three_way_count (l : List PageChange) :
    (l.filter (fun c => c.changeType == ChangeType.added)).length
      + (l.filter (fun c => c.changeType == ChangeType.updated)).length
      + (l.filter (fun c => c.changeType == ChangeType.deleted)).length
      = l.length := by
  induction l with
  | nil => rfl
  | cons hd tl ih =>
    cases h : hd.changeType <;> simp [List.filter_cons, h] <;> omega

/-! Section: Claim theorems -/

/-- Claim C7: for every ChangeSet the Snapshot Differ returns, the summary is
the exact tally of the changes list — each component counts the records of its
kind, and the three components sum to the length of `changes`. -/
theorem C7_summary_consistency (prev curr : List SimplePage) (db nm : String) :
    (detectPageChanges prev curr db nm).summary.added
        = ((detectPageChanges prev curr db nm).changes.filter
            (fun c => c.changeType == ChangeType.added)).length
    ∧ (detectPageChanges prev curr db nm).summary.updated
        = ((detectPageChanges prev curr db nm).changes.filter
            (fun c => c.changeType == ChangeType.updated)).length
    ∧ (detectPageChanges prev curr db nm).summary.deleted
        = ((detectPageChanges prev curr db nm).changes.filter
            (fun c => c.changeType == ChangeType.deleted)).length
    ∧ (detectPageChanges prev curr db nm).summary.added
        + (detectPageChanges prev curr db nm).summary.updated
        + (detectPageChanges prev curr db nm).summary.deleted
        = (detectPageChanges prev curr db nm).changes.length :=
  ⟨rfl, rfl, rfl, three_way_count _⟩

/-- Claim C9: diffing with no previous snapshot (realized as the empty previous
page list) classifies every record of the current snapshot as `added` — the
ids of the changes are exactly the current ids in order, every record is
`added`, and the summary is `(|current|, 0, 0)`. -/
theorem C9_first_run_all_added (curr : List SimplePage) (db nm : String) :
    (detectPageChanges [] curr db nm).changes.map PageChange.id
        = curr.map SimplePage.id
    ∧ ((detectPageChanges [] curr db nm).changes.all
        (fun c => c.changeType == ChangeType.added)) = true
    ∧ (detectPageChanges [] curr db nm).summary = ⟨curr.length, 0, 0⟩ := by
  have h := detect_nil_prev_changes curr db nm
  have hall : ∀ c ∈ (detectPageChanges [] curr db nm).changes,
      c.changeType = ChangeType.added := by
    intro c hc
    rw [h] at hc
    rcases List.mem_map.mp hc with ⟨pg, _, rfl⟩
    rfl
  refine ⟨?_, ?_, ?_⟩
  · rw [h, List.map_map]; rfl
  · exact List.all_eq_true.mpr (fun c hc => by rw [hall c hc]; rfl)
  · rw [detect_summary_eq]
    have hadd : ((detectPageChanges [] curr db nm).changes.filter
        (fun c => c.changeType == ChangeType.added))
        = (detectPageChanges [] curr db nm).changes :=
      List.filter_eq_self.mpr (fun c hc => by rw [hall c hc]; rfl)
    have hupd : ((detectPageChanges [] curr db nm).changes.filter
        (fun c => c.changeType == ChangeType.updated)) = [] :=
      List.filter_eq_nil_iff.mpr (fun c hc => by rw [hall c hc]; simp)
    have hdel : ((detectPageChanges [] curr db nm).changes.filter
        (fun c => c.changeType == ChangeType.deleted)) = [] :=
      List.filter_eq_nil_iff.mpr (fun c hc => by rw [hall c hc]; simp)
    unfold tallySummary
    rw [hadd, hupd, hdel]
    have hlen : (detectPageChanges [] curr db nm).changes.length = curr.length := by
      rw [h, List.length_map]
    simp [hlen]

/-- Claim C5 counterexample: a page list in which two entries share the id
`"x"` is not rejected — `detectPageChanges` returns an ordinary `ChangeSet`,
and it even contains two ChangeRecords with the same id (one per duplicate
occurrence), so the diff is also not computed from a deduplicated record set. -/
theorem C5_counterexample :
    (detectPageChanges [] [⟨"x", "t1", none⟩, ⟨"x", "t2", none⟩] "db" "nm").changes
      = [⟨"x", "x", ChangeType.added, "t1", none, none, none⟩,
         ⟨"x", "x", ChangeType.added, "t2", none, none, none⟩] := rfl

/-- Claim C5 (amended): duplicate ids are silently tolerated rather than
rejected.  The differ builds last-wins lookup maps and iterates the raw page
lists, so a page occurring twice in the current list yields one ChangeRecord
per occurrence (and likewise for the previous list on the deleted side); no
error is ever raised and no deduplicated ChangeSet is produced. -/
theorem C5_amended (page : SimplePage) (l : List SimplePage) (db nm : String) :
    ((detectPageChanges [] (page :: page :: l) db nm).changes.map PageChange.id).take 2
        = [page.id, page.id]
    ∧ (detectPageChanges [] (page :: page :: l) db nm).changes.length = l.length + 2
    ∧ ((detectPageChanges (page :: page :: l) [] db nm).changes.map PageChange.id).take 2
        = [page.id, page.id]
    ∧ (detectPageChanges (page :: page :: l) [] db nm).changes.length = l.length + 2 := by
  have h1 := detect_nil_prev_changes (page :: page :: l) db nm
  have h2 := detect_nil_curr_changes (page :: page :: l) db nm
  refine ⟨?_, ?_, ?_, ?_⟩ <;> simp [h1, h2]

/-- Claim C4 (code bug evaluation): on the repository's own differ-test input
(`tests/notion/differ.test.ts`, "追加されたページのプロパティを記録する"), the
added ChangeRecord produced by `detectPageChanges` carries NO
`initialProperties` (`none`, i.e. JS `undefined`), although the discovered
record has a full property map — the test (and the spec's `initial_fields`
clause) expects that map on the record. -/
theorem C4_code_bug_eval :
    (detectPageChanges
        [⟨"page-1", "2025-01-01T00:00:00.000Z", none⟩]
        [⟨"page-1", "2025-01-01T00:00:00.000Z", none⟩,
         ⟨"page-2", "2025-01-02T00:00:00.000Z",
          some [("Name", JsValue.vStr "New Page Title"),
                ("Status", JsValue.vStr "Draft"),
                ("Priority", JsValue.vNum 1),
                ("Tags", JsValue.vArr [JsValue.vStr "new", JsValue.vStr "important"])]⟩]
        "test-db-123" "Test Database").changes
      = [⟨"page-2", "New Page Title", ChangeType.added, "2025-01-02T00:00:00.000Z",
          none, none, none⟩] := rfl

/-- Claim C2 counterexample: previous page `p1` has no `properties` member,
current page `p1` has an (empty) `properties` object and the same
`last_edited_time`.  `hasPropertiesChanged` classifies the pair as updated, yet
`getPropertyChanges` is empty — an `updated` ChangeRecord with an empty
`propertyChanges` list AND an unchanged revision marker, which the claim says
can never happen. -/
theorem C2_counterexample :
    (detectPageChanges [⟨"p1", "t0", none⟩] [⟨"p1", "t0", some []⟩] "db" "nm").changes
      = [⟨"p1", "p1", ChangeType.updated, "t0", some "t0", some [], none⟩]
    ∧ ¬((some [] : Option (List PropertyChange)) ≠ some []
        ∨ (some "t0" : Option String) ≠ some "t0") :=
  ⟨rfl, by simp⟩

/-- Claim C3 counterexample: the key `"Status"` is present (with value `null`)
on the previous side and absent on the current side, yet the field comparison
emits NO entry for it: `areValuesEqual` conflates `null` with the `undefined`
sentinel of the missing side, so a field going from `null` to absent is not
reported as a change. -/
theorem C3_counterexample :
    pageProp (some [("Status", JsValue.vNull)]) "Status" = JsValue.vNull
    ∧ pageProp (some []) "Status" = JsValue.vUndef
    ∧ getPropertyChanges ⟨"p1", "t0", some [("Status", JsValue.vNull)]⟩
        ⟨"p1", "t0", some []⟩ = [] :=
  ⟨rfl, rfl, rfl⟩

/-- The condition under which the first loop of the differ emits a record for a
current page: its id is new, or the page pair is `hasPageChanged`. -/
def producesCurrentRecord (previousPages : List SimplePage) (currentPage : SimplePage) :
    Bool :=
  match pagesMapGet previousPages currentPage.id with
  | none => true
  | some previousPage => hasPageChanged previousPage currentPage

lemma currentSideRecord_isSome (prev : List SimplePage) (pg : SimplePage) :
    (currentSideRecord prev pg).isSome = producesCurrentRecord prev pg := by
  unfold currentSideRecord producesCurrentRecord
  cases pagesMapGet prev pg.id with
  | none => rfl
  | some pp => cases h : hasPageChanged pp pg <;> simp [h]

lemma currentSideRecord_id_type (prev : List SimplePage) (pg : SimplePage)
    (ch : PageChange) (h : currentSideRecord prev pg = some ch) :
    ch.id = pg.id ∧ (ch.changeType == ChangeType.deleted) = false := by
  unfold currentSideRecord at h
  split at h
  · cases h; exact ⟨rfl, rfl⟩
  · split at h
    · cases h; exact ⟨rfl, rfl⟩
    · exact Option.noConfusion h

lemma deletedSideRecord_isSome (curr : List SimplePage) (pg : SimplePage) :
    (deletedSideRecord curr pg).isSome = !pagesMapHas curr pg.id := by
  unfold deletedSideRecord
  cases h : pagesMapHas curr pg.id <;> simp [h]

lemma deletedSideRecord_id_type (curr : List SimplePage) (pg : SimplePage)
    (ch : PageChange) (h : deletedSideRecord curr pg = some ch) :
    ch.id = pg.id ∧ ch.changeType = ChangeType.deleted := by
  unfold deletedSideRecord at h
  split at h
  · exact Option.noConfusion h
  · cases h; exact ⟨rfl, rfl⟩

lemma current_ids_eq_filter (prev curr : List SimplePage) :
    (curr.filterMap (currentSideRecord prev)).map PageChange.id
      = (curr.filter (producesCurrentRecord prev)).map SimplePage.id := by
  induction curr with
  | nil => rfl
  | cons hd tl ih =>
    rw [List.filterMap_cons, List.filter_cons]
    cases h : currentSideRecord prev hd with
    | none =>
      have hp : producesCurrentRecord prev hd = false := by
        rw [← currentSideRecord_isSome, h]; rfl
      simp [hp, ih]
    | some ch =>
      have hp : producesCurrentRecord prev hd = true := by
        rw [← currentSideRecord_isSome, h]; rfl
      have hid := (currentSideRecord_id_type prev hd ch h).1
      simp [hp, hid, ih]

lemma deleted_ids_eq_filter (prev curr : List SimplePage) :
    (prev.filterMap (deletedSideRecord curr)).map PageChange.id
      = (prev.filter (fun pg => !pagesMapHas curr pg.id)).map SimplePage.id := by
  induction prev with
  | nil => rfl
  | cons hd tl ih =>
    rw [List.filterMap_cons, List.filter_cons]
    cases h : deletedSideRecord curr hd with
    | none =>
      have hp : (!pagesMapHas curr hd.id) = false := by
        rw [← deletedSideRecord_isSome, h]; rfl
      simp [hp, ih]
    | some ch =>
      have hp : (!pagesMapHas curr hd.id) = true := by
        rw [← deletedSideRecord_isSome, h]; rfl
      have hid := (deletedSideRecord_id_type curr hd ch h).1
      simp [hp, hid, ih]

lemma current_part_not_deleted (prev curr : List SimplePage) :
    ∀ ch ∈ curr.filterMap (currentSideRecord prev),
      (ch.changeType == ChangeType.deleted) = false := by
  intro ch hch
  rcases List.mem_filterMap.mp hch with ⟨pg, _, h⟩
  exact (currentSideRecord_id_type prev pg ch h).2

lemma deleted_part_deleted (prev curr : List SimplePage) :
    ∀ ch ∈ prev.filterMap (deletedSideRecord curr),
      ch.changeType = ChangeType.deleted := by
  intro ch hch
  rcases List.mem_filterMap.mp hch with ⟨pg, _, h⟩
  exact (deletedSideRecord_id_type curr pg ch h).2

/-- Claim C8: the changes list is the added/updated records in the current
snapshot's iteration order, followed by the deleted records in the previous
snapshot's iteration order: the non-deleted block is a prefix and the deleted
block a suffix, the non-deleted ids are exactly the ids of the current pages
that produce a record (in current order), and the deleted ids are exactly the
ids of the previous pages absent from the current map (in previous order). -/
theorem C8_change_order (prev curr : List SimplePage) (db nm : String) :
    (detectPageChanges prev curr db nm).changes
      = (detectPageChanges prev curr db nm).changes.filter
          (fun c => !(c.changeType == ChangeType.deleted))
        ++ (detectPageChanges prev curr db nm).changes.filter
          (fun c => c.changeType == ChangeType.deleted)
    ∧ ((detectPageChanges prev curr db nm).changes.filter
          (fun c => !(c.changeType == ChangeType.deleted))).map PageChange.id
        = (curr.filter (producesCurrentRecord prev)).map SimplePage.id
    ∧ ((detectPageChanges prev curr db nm).changes.filter
          (fun c => c.changeType == ChangeType.deleted)).map PageChange.id
        = (prev.filter (fun pg => !pagesMapHas curr pg.id)).map SimplePage.id := by
  have hch := detect_changes_eq prev curr db nm
  have hA : (curr.filterMap (currentSideRecord prev)).filter
      (fun c => !(c.changeType == ChangeType.deleted))
      = curr.filterMap (currentSideRecord prev) :=
    List.filter_eq_self.mpr (fun c hc => by
      rw [current_part_not_deleted prev curr c hc]; rfl)
  have hA2 : (curr.filterMap (currentSideRecord prev)).filter
      (fun c => c.changeType == ChangeType.deleted) = [] :=
    List.filter_eq_nil_iff.mpr (fun c hc => by
      rw [current_part_not_deleted prev curr c hc]; simp)
  have hD : (prev.filterMap (deletedSideRecord curr)).filter
      (fun c => c.changeType == ChangeType.deleted)
      = prev.filterMap (deletedSideRecord curr) :=
    List.filter_eq_self.mpr (fun c hc => by
      rw [deleted_part_deleted prev curr c hc]; rfl)
  have hD2 : (prev.filterMap (deletedSideRecord curr)).filter
      (fun c => !(c.changeType == ChangeType.deleted)) = [] :=
    List.filter_eq_nil_iff.mpr (fun c hc => by
      rw [deleted_part_deleted prev curr c hc]; simp)
  refine ⟨?_, ?_, ?_⟩
  · rw [hch, List.filter_append, List.filter_append, hA, hA2, hD, hD2,
      List.append_nil, List.nil_append]
  · rw [hch, List.filter_append, hA, hD2, List.append_nil,
      current_ids_eq_filter]
  · rw [hch, List.filter_append, hA2, hD, List.nil_append,
      deleted_ids_eq_filter]

/-- Claim C2 (amended): every `updated` ChangeRecord has a changed revision
marker or a non-empty `propertyChanges` list, EXCEPT when the underlying page
pair's property maps differ under the shallow `hasPropertiesChanged`
comparison while every per-key difference is invisible to the
nullish-identifying value comparison (e.g. a `properties` member appearing
with no visible keys, or `null` ↔ absent flips); in that degenerate case the
updated record has an unchanged marker and an empty `propertyChanges` list. -/
theorem C2_amended (prev curr : List SimplePage) (db nm : String) (ch : PageChange)
    (hmem : ch ∈ (detectPageChanges prev curr db nm).changes)
    (hupd : ch.changeType = ChangeType.updated) :
    ch.previous_time ≠ some ch.last_edited_time
    ∨ ch.propertyChanges ≠ some []
    ∨ ∃ previousPage currentPage,
        currentPage ∈ curr
        ∧ pagesMapGet prev currentPage.id = some previousPage
        ∧ ch.id = currentPage.id
        ∧ hasPropertiesChanged previousPage.properties currentPage.properties = true
        ∧ getPropertyChanges previousPage currentPage = [] := by
  rw [detect_changes_eq] at hmem
  rcases List.mem_append.mp hmem with hA | hD
  · rcases List.mem_filterMap.mp hA with ⟨pg, hpg, hrec⟩
    unfold currentSideRecord at hrec
    split at hrec
    · cases hrec; exact absurd hupd (by simp)
    · rename_i pp hgm
      split at hrec
      · rename_i hc
        cases hrec
        unfold hasPageChanged at hc
        by_cases ht : (pg.last_edited_time != pp.last_edited_time) = true
        · left
          intro hcontra
          have : pp.last_edited_time = pg.last_edited_time := Option.some.inj hcontra
          exact bne_iff_ne.mp ht this.symm
        · have hprops : hasPropertiesChanged pp.properties pg.properties = true := by
            rw [if_neg ht] at hc; exact hc
          by_cases hempty : getPropertyChanges pp pg = []
          · exact Or.inr (Or.inr ⟨pp, pg, hpg, hgm, rfl, hprops, hempty⟩)
          · exact Or.inr (Or.inl (fun h => hempty (Option.some.inj h)))
      · exact Option.noConfusion hrec
  · rcases List.mem_filterMap.mp hD with ⟨pg, _, hrec⟩
    have hdel := (deletedSideRecord_id_type curr pg ch hrec).2
    rw [hupd] at hdel
    exact absurd hdel (by simp)

/-- Claim C2 witness: a genuine property-only update (`Status: Draft →
Published` with an unchanged marker), instantiating the amended theorem at a
concrete input. -/
theorem C2_amended_witness :
    (⟨"p1", "p1", ChangeType.updated, "t0", some "t0",
        some [⟨"Status", JsValue.vStr "Draft", JsValue.vStr "Published"⟩], none⟩ : PageChange)
      ∈ (detectPageChanges
          [⟨"p1", "t0", some [("Status", JsValue.vStr "Draft")]⟩]
          [⟨"p1", "t0", some [("Status", JsValue.vStr "Published")]⟩] "db" "nm").changes
    ∧ ((some "t0" : Option String) ≠ some "t0"
        ∨ (some [⟨"Status", JsValue.vStr "Draft", JsValue.vStr "Published"⟩]
            : Option (List PropertyChange)) ≠ some []
        ∨ ∃ previousPage currentPage,
            currentPage ∈ [(⟨"p1", "t0", some [("Status", JsValue.vStr "Published")]⟩ : SimplePage)]
            ∧ pagesMapGet [⟨"p1", "t0", some [("Status", JsValue.vStr "Draft")]⟩]
                currentPage.id = some previousPage
            ∧ "p1" = currentPage.id
            ∧ hasPropertiesChanged previousPage.properties currentPage.properties = true
            ∧ getPropertyChanges previousPage currentPage = []) := by
  have hmem : (⟨"p1", "p1", ChangeType.updated, "t0", some "t0",
      some [⟨"Status", JsValue.vStr "Draft", JsValue.vStr "Published"⟩], none⟩ : PageChange)
      ∈ (detectPageChanges
          [⟨"p1", "t0", some [("Status", JsValue.vStr "Draft")]⟩]
          [⟨"p1", "t0", some [("Status", JsValue.vStr "Published")]⟩] "db" "nm").changes := by
    rw [show (detectPageChanges
          [⟨"p1", "t0", some [("Status", JsValue.vStr "Draft")]⟩]
          [⟨"p1", "t0", some [("Status", JsValue.vStr "Published")]⟩] "db" "nm").changes
        = [⟨"p1", "p1", ChangeType.updated, "t0", some "t0",
            some [⟨"Status", JsValue.vStr "Draft", JsValue.vStr "Published"⟩], none⟩] from rfl]
    exact List.mem_singleton.mpr rfl
  exact ⟨hmem, C2_amended _ _ "db" "nm" _ hmem rfl⟩

/-- Forgets the `initialProperties` enrichment of a ChangeRecord, leaving the
fields that `differ.ts`'s own `PageChange` interface declares. -/
def stripInitial (ch : PageChange) : PageChange :=
  { ch with initialProperties := none }

lemma filterMap_ext {α β : Type} (f g : α → Option β) (l : List α)
    (h : ∀ a ∈ l, f a = g a) : l.filterMap f = l.filterMap g := by
  induction l with
  | nil => rfl
  | cons hd tl ih =>
    rw [List.filterMap_cons, List.filterMap_cons, h hd (by simp),
      ih (fun a ha => h a (by simp [ha]))]

lemma strip_currentSideRecordWithInitial (prev : List SimplePage) (pg : SimplePage) :
    (currentSideRecordWithInitial prev pg).map stripInitial
      = currentSideRecord prev pg := by
  unfold currentSideRecordWithInitial currentSideRecord
  cases pagesMapGet prev pg.id with
  | none => rfl
  | some pp => cases h : hasPageChanged pp pg <;> simp [h, stripInitial]

lemma strip_deletedSideRecord (curr : List SimplePage) (pg : SimplePage) :
    (deletedSideRecord curr pg).map stripInitial = deletedSideRecord curr pg := by
  unfold deletedSideRecord
  cases h : pagesMapHas curr pg.id <;> simp [h, stripInitial]

lemma comparePages_changes_eq (prev curr : List SimplePage) (db nm : String) :
    (comparePages prev curr db nm).changes
      = curr.filterMap (currentSideRecordWithInitial prev)
        ++ prev.filterMap (deletedSideRecord curr) := rfl

lemma comparePages_changes_strip (prev curr : List SimplePage) (db nm : String) :
    (comparePages prev curr db nm).changes.map stripInitial
      = (detectPageChanges prev curr db nm).changes := by
  rw [comparePages_changes_eq, detect_changes_eq, List.map_append,
    List.map_filterMap, List.map_filterMap]
  congr 1
  · exact filterMap_ext _ _ _ (fun pg _ => strip_currentSideRecordWithInitial prev pg)
  · exact filterMap_ext _ _ _ (fun pg _ => strip_deletedSideRecord curr pg)

lemma stripInitial_changeType (ch : PageChange) :
    (stripInitial ch).changeType = ch.changeType := rfl

lemma tally_map_strip (l : List PageChange) :
    tallySummary (l.map stripInitial) = tallySummary l := by
  unfold tallySummary
  rw [List.filter_map, List.filter_map, List.filter_map]
  simp only [List.length_map]
  rfl

/-- Claim C1: `calculateSingleDatabaseDelta` returns exactly the change-set the
Snapshot Differ (`detectPageChanges`) produces on the reported snapshot's page
list (empty when the reported snapshot is absent) versus the fresh snapshot's
page list: the same records (up to the `initialProperties` enrichment of added
records, which the spec-modelled scripts-side differ adds and `differ.ts`'s
own record shape lacks) with the same classifications, per-property diffs and
summary, and `hasChanges` equal to non-emptiness of the change list. -/
theorem C1_delta_refines_differ (databaseId databaseName : String)
    (previousState : Option DatabaseState) (currentState : DatabaseState) :
    (calculateSingleDatabaseDelta databaseId databaseName previousState
        currentState).changedPages.map stripInitial
      = (detectPageChanges (prevPagesOf previousState) currentState.pages
          databaseId databaseName).changes
    ∧ (calculateSingleDatabaseDelta databaseId databaseName previousState
        currentState).summary
      = (detectPageChanges (prevPagesOf previousState) currentState.pages
          databaseId databaseName).summary
    ∧ ((calculateSingleDatabaseDelta databaseId databaseName previousState
        currentState).hasChanges = true
      ↔ (detectPageChanges (prevPagesOf previousState) currentState.pages
          databaseId databaseName).changes ≠ []) := by
  have hwrap : (calculateSingleDatabaseDelta databaseId databaseName previousState
      currentState).changedPages
      = (comparePages (prevPagesOf previousState) currentState.pages
          databaseId databaseName).changes := by
    show List.map _ _ = _
    exact List.map_id _
  refine ⟨?_, ?_, ?_⟩
  · rw [hwrap, comparePages_changes_strip]
  · show tallySummary (comparePages (prevPagesOf previousState) currentState.pages
        databaseId databaseName).changes
      = tallySummary (detectPageChanges (prevPagesOf previousState) currentState.pages
          databaseId databaseName).changes
    rw [← comparePages_changes_strip, tally_map_strip]
  · show (decide (0 < (comparePages (prevPagesOf previousState) currentState.pages
        databaseId databaseName).changes.length) = true) ↔ _
    have hlen : (comparePages (prevPagesOf previousState) currentState.pages
        databaseId databaseName).changes.length
        = (detectPageChanges (prevPagesOf previousState) currentState.pages
            databaseId databaseName).changes.length := by
      rw [← comparePages_changes_strip, List.length_map]
    simp [hlen, List.length_pos]

lemma stateFor_append (ps : List (String × DatabaseState)) (k : String)
    (st : DatabaseState) (a : String) (h : a ≠ k) :
    stateFor (ps ++ [(k, st)]) a = stateFor ps a := by
  unfold stateFor
  induction ps with
  | nil =>
    simp only [List.nil_append, List.lookup]
    rw [show (a == k) = false from beq_eq_false_iff_ne.mpr h]
  | cons hd tl ih =>
    rcases hd with ⟨k', v'⟩
    by_cases h' : a = k'
    · subst h'; simp [List.lookup]
    · simp only [List.cons_append, List.lookup]
      rw [show (a == k') = false from beq_eq_false_iff_ne.mpr h']
      exact ih

lemma foldl_ext {α β : Type} (f g : β → α → β) (l : List α)
    (h : ∀ b : β, ∀ a ∈ l, f b a = g b a) (init : β) :
    l.foldl f init = l.foldl g init := by
  induction l generalizing init with
  | nil => rfl
  | cons hd tl ih =>
    rw [List.foldl_cons, List.foldl_cons, h init hd (by simp)]
    exact ih (fun b a ha => h b a (by simp [ha])) _

/-- Claim C10: `calculateMultiDatabaseDelta` inspects only the collection ids
of the current-side map — appending to `previousStates` an entry whose key is
absent from `currentStates` changes nothing: no per-collection delta, no
deleted records, no contribution to `totalChanges` or `hasChanges`. -/
theorem C10_missing_current_collection_ignored
    (previousStates currentStates : List (String × DatabaseState))
    (databaseNames : List (String × String)) (k : String) (st : DatabaseState)
    (hk : k ∉ currentStates.map Prod.fst) :
    calculateMultiDatabaseDelta (previousStates ++ [(k, st)]) currentStates
        databaseNames
      = calculateMultiDatabaseDelta previousStates currentStates databaseNames := by
  unfold calculateMultiDatabaseDelta
  rw [foldl_ext (multiDeltaStep (previousStates ++ [(k, st)]) databaseNames)
    (multiDeltaStep previousStates databaseNames) currentStates
    (fun b a ha => by
      unfold multiDeltaStep
      rw [stateFor_append previousStates k st a.fst
        (fun he => hk (he ▸ List.mem_map_of_mem Prod.fst ha))])
    (([] : List StateDelta), (0 : Nat), (0 : Nat), (0 : Nat))]

/-- Claim C10 witness: a previous-side-only collection `"gone"` (holding one
page) is ignored outright when the current side has only `"db1"`. -/
theorem C10_witness :
    calculateMultiDatabaseDelta
        ([] ++ [("gone", (⟨"s0", [⟨"a", "t", none⟩]⟩ : DatabaseState))])
        [("db1", (⟨"s1", [⟨"b", "t", none⟩]⟩ : DatabaseState))] []
      = calculateMultiDatabaseDelta []
          [("db1", (⟨"s1", [⟨"b", "t", none⟩]⟩ : DatabaseState))] [] :=
  C10_missing_current_collection_ignored []
    [("db1", (⟨"s1", [⟨"b", "t", none⟩]⟩ : DatabaseState))] [] "gone"
    (⟨"s0", [⟨"a", "t", none⟩]⟩ : DatabaseState) (by simp)

lemma lookup_eq_none_of_not_mem (fields : List (String × JsValue)) (k : String)
    (h : k ∉ fields.map Prod.fst) : fields.lookup k = none := by
  induction fields with
  | nil => rfl
  | cons hd tl ih =>
    rcases hd with ⟨k', v⟩
    simp only [List.map_cons, List.mem_cons] at h
    push_neg at h
    simp only [List.lookup]
    rw [show (k == k') = false from beq_eq_false_iff_ne.mpr h.1]
    exact ih h.2

lemma pageProp_not_nullish_mem_keys (props : Option (List (String × JsValue)))
    (k : String) (h : jsNullish (pageProp props k) = false) :
    k ∈ objKeys (props.getD []) := by
  cases props with
  | none => simp [pageProp, jsNullish] at h
  | some fields =>
    by_cases hk : k ∈ fields.map Prod.fst
    · simpa [objKeys] using hk
    · exfalso
      have : pageProp (some fields) k = JsValue.vUndef := by
        simp [pageProp, objGet, lookup_eq_none_of_not_mem fields k hk]
      rw [this] at h
      simp [jsNullish] at h

lemma areValuesEqual_false_nullish (v w : JsValue)
    (h : areValuesEqual v w = false) :
    jsNullish v = false ∨ jsNullish w = false := by
  by_cases h1 : jsNullish v = true
  · by_cases h2 : jsNullish w = true
    · exfalso
      unfold areValuesEqual at h
      rw [h1, h2] at h
      simp at h
    · exact Or.inr (by simpa using h2)
  · exact Or.inl (by simpa using h1)

lemma mem_setOrderedKeys (k : String) (l : List String) :
    ∀ seen, (k ∈ setOrderedKeys seen l ↔ (k ∈ l ∧ k ∉ seen)) := by
  induction l with
  | nil => intro seen; simp [setOrderedKeys]
  | cons hd tl ih =>
    intro seen
    by_cases hc : List.contains seen hd
    · have hhd : hd ∈ seen := List.elem_iff.mp hc
      rw [show setOrderedKeys seen (hd :: tl) = setOrderedKeys seen tl from by
        simp [setOrderedKeys, hhd]]
      rw [ih seen]
      constructor
      · rintro ⟨h1, h2⟩; exact ⟨List.mem_cons_of_mem _ h1, h2⟩
      · rintro ⟨h1, h2⟩
        rcases List.mem_cons.mp h1 with rfl | h1'
        · exact absurd hhd h2
        · exact ⟨h1', h2⟩
    · have hhd : hd ∉ seen := fun hmem => hc (List.elem_iff.mpr hmem)
      rw [show setOrderedKeys seen (hd :: tl) = hd :: setOrderedKeys (hd :: seen) tl from by
        simp [setOrderedKeys, hhd]]
      rw [List.mem_cons, ih (hd :: seen)]
      constructor
      · rintro (rfl | ⟨h1, h2⟩)
        · exact ⟨List.mem_cons_self _ _, hhd⟩
        · exact ⟨List.mem_cons_of_mem _ h1, fun hs => h2 (List.mem_cons_of_mem _ hs)⟩
      · rintro ⟨h1, h2⟩
        rcases List.mem_cons.mp h1 with rfl | h1'
        · exact Or.inl rfl
        · by_cases hk : k = hd
          · exact Or.inl hk
          · exact Or.inr ⟨h1', fun hs => (List.mem_cons.mp hs).elim hk h2⟩

lemma nodup_setOrderedKeys (l : List String) :
    ∀ seen, (setOrderedKeys seen l).Nodup := by
  induction l with
  | nil => intro seen; simp [setOrderedKeys]
  | cons hd tl ih =>
    intro seen
    by_cases hc : List.contains seen hd
    · have hhd : hd ∈ seen := List.elem_iff.mp hc
      simpa [setOrderedKeys, hhd] using ih seen
    · have hhd : hd ∉ seen := fun hmem => hc (List.elem_iff.mpr hmem)
      rw [show setOrderedKeys seen (hd :: tl) = hd :: setOrderedKeys (hd :: seen) tl from by
        simp [setOrderedKeys, hhd]]
      refine List.nodup_cons.mpr ⟨fun hmem => ?_, ih (hd :: seen)⟩
      exact ((mem_setOrderedKeys hd tl (hd :: seen)).mp hmem).2 (List.mem_cons_self _ _)

lemma filter_name_filterMap (f : String → Option PropertyChange)
    (hf : ∀ j e, f j = some e → e.propertyName = j) (ks : List String) :
    ks.Nodup → ∀ k,
      (ks.filterMap f).filter (fun e => e.propertyName == k)
        = if k ∈ ks then (f k).toList else [] := by
  induction ks with
  | nil => intro _ k; simp
  | cons hd tl ih =>
    intro hnd k
    have hnd' : tl.Nodup := (List.nodup_cons.mp hnd).2
    have hhd : hd ∉ tl := (List.nodup_cons.mp hnd).1
    rw [List.filterMap_cons]
    cases hfhd : f hd with
    | none =>
      rw [ih hnd' k]
      by_cases hk : k = hd
      · subst hk
        simp [hfhd, hhd]
      · simp [hk]
    | some e =>
      have hname : e.propertyName = hd := hf hd e hfhd
      rw [List.filter_cons]
      by_cases hk : k = hd
      · subst hk
        rw [if_pos (by simp [hname])]
        rw [ih hnd' k]
        simp [hfhd, hhd]
      · rw [if_neg (by simp [hname]; exact fun he => hk he.symm)]
        rw [ih hnd' k]
        simp [hk]

lemma getPropertyChanges_eq (p c : SimplePage) :
    getPropertyChanges p c
      = (setOrderedKeys []
          (objKeys (p.properties.getD []) ++ objKeys (c.properties.getD []))).filterMap
          (fun propertyName =>
            if areValuesEqual (pageProp p.properties propertyName)
                (pageProp c.properties propertyName) then none
            else some ⟨propertyName, pageProp p.properties propertyName,
              pageProp c.properties propertyName⟩) := by
  unfold getPropertyChanges
  rcases hp : p.properties with _ | pf <;> rcases hc : c.properties with _ | cf <;>
    simp [hp, hc, setOrderedKeys, objKeys]

/-- Claim C3 (amended): for every key of the union of the two property maps,
one `field_changes` entry is emitted exactly when the two sides' values differ
under the nullish-identifying comparison `areValuesEqual`: a key present with a
non-nullish value on one side and absent on the other IS reported (the missing
side read as the `undefined` sentinel), but `null` and absent/`undefined` are
identified, so a field going from `null` to absent (or absent to `null`) is
NOT reported as a change. -/
theorem C3_amended (p c : SimplePage) (k : String) :
    (getPropertyChanges p c).filter (fun e => e.propertyName == k)
      = if areValuesEqual (pageProp p.properties k) (pageProp c.properties k)
        then []
        else [⟨k, pageProp p.properties k, pageProp c.properties k⟩] := by
  rw [getPropertyChanges_eq]
  have hf : ∀ j e,
      (if areValuesEqual (pageProp p.properties j) (pageProp c.properties j) then none
       else some (⟨j, pageProp p.properties j, pageProp c.properties j⟩ : PropertyChange))
        = some e → e.propertyName = j := by
    intro j e h
    split at h
    · exact Option.noConfusion h
    · cases h; rfl
  rw [filter_name_filterMap _ hf _
    (nodup_setOrderedKeys
      (objKeys (p.properties.getD []) ++ objKeys (c.properties.getD [])) []) k]
  by_cases heq : areValuesEqual (pageProp p.properties k) (pageProp c.properties k) = true
  · simp [heq]
  · have hfalse : areValuesEqual (pageProp p.properties k) (pageProp c.properties k)
        = false := Bool.eq_false_iff.mpr heq
    have hkmem : k ∈ setOrderedKeys []
        (objKeys (p.properties.getD []) ++ objKeys (c.properties.getD [])) := by
      refine (mem_setOrderedKeys k _ []).mpr ⟨?_, by simp⟩
      rcases areValuesEqual_false_nullish _ _ hfalse with h1 | h1
      · exact List.mem_append.mpr (Or.inl (pageProp_not_nullish_mem_keys _ _ h1))
      · exact List.mem_append.mpr (Or.inr (pageProp_not_nullish_mem_keys _ _ h1))
    rw [if_pos hkmem]
    simp [hfalse]

/-! Section: Well-formedness of property payloads

`wfProperty` delimits the property values on which the typed extractor cannot
reach one of its unguarded dereferences: every payload that is dereferenced
without optional chaining must be present and correctly shaped, and list
payloads must not contain nullish elements. -/

/-- Title / rich-text payload: may be falsy, else must be an array of
non-nullish run objects. -/
def wfTextPayload (ta : JsValue) : Bool :=
  if !jsTruthy ta then true
  else
    match ta with
    | JsValue.vArr items => items.all (fun i => !jsNullish i)
    | _ => false

/-- Model of `relation` / `multi_select` / `people` payload: dereferenced with no guard
at all, so it must be an array (not even nullish is tolerated) of non-nullish
elements. -/
def wfMapPayload (arr : JsValue) : Bool :=
  match arr with
  | JsValue.vArr items => items.all (fun i => !jsNullish i)
  | _ => false

/-- Model of `files` payload: may be falsy, else must be an array of non-nullish
entries. -/
def wfFilesPayload (fa : JsValue) : Bool :=
  if !jsTruthy fa then true
  else
    match fa with
    | JsValue.vArr items => items.all (fun i => !jsNullish i)
    | _ => false

/-- One `rollup.array` element: non-nullish, and its title / rich-text payload
well-formed when its element type says so. -/
def wfRollupItem (item : JsValue) : Bool :=
  match item with
  | JsValue.vUndef => false
  | JsValue.vNull => false
  | JsValue.vObj ifs =>
    match objGet ifs "type" with
    | JsValue.vStr "title" => wfTextPayload (objGet ifs "title")
    | JsValue.vStr "rich_text" => wfTextPayload (objGet ifs "rich_text")
    | _ => true
  | _ => true

/-- Well-formedness of the `array` arm of a rollup: a falsy `array` member is
fine, an array-shaped one needs well-formed elements, anything else throws. -/
def wfRollupArray (rfs : List (String × JsValue)) : Bool :=
  if !jsTruthy (objGet rfs "array") then true
  else
    match objGet rfs "array" with
    | JsValue.vArr items => items.all wfRollupItem
    | _ => false

/-- Model of `rollup` payload: falsy or non-object rollups are fine; an `array` rollup
needs a falsy or array-shaped `array` member with well-formed elements. -/
def wfRollupPayload (rollup : JsValue) : Bool :=
  if !jsTruthy rollup then true
  else
    match rollup with
    | JsValue.vObj rfs =>
      match objGet rfs "type" with
      | JsValue.vStr "array" => wfRollupArray rfs
      | _ => true
    | _ => true

/-- Per-tag payload well-formedness, mirroring `extractByTag` arm by arm;
arms that cannot throw are `true`. -/
def wfByTag (t : String) (fs : List (String × JsValue)) : Bool :=
  if t = "title" then wfTextPayload (objGet fs "title")
  else if t = "rich_text" then wfTextPayload (objGet fs "rich_text")
  else if t = "select" then true
  else if t = "status" then true
  else if t = "relation" then wfMapPayload (objGet fs "relation")
  else if t = "rollup" then wfRollupPayload (objGet fs "rollup")
  else if t = "number" then true
  else if t = "checkbox" then true
  else if t = "date" then true
  else if t = "url" then true
  else if t = "email" then true
  else if t = "phone_number" then true
  else if t = "multi_select" then wfMapPayload (objGet fs "multi_select")
  else if t = "people" then wfMapPayload (objGet fs "people")
  else if t = "files" then wfFilesPayload (objGet fs "files")
  else if t = "formula" then true
  else if t = "created_time" then true
  else if t = "created_by" then !jsNullish (objGet fs "created_by")
  else if t = "last_edited_time" then true
  else if t = "last_edited_by" then !jsNullish (objGet fs "last_edited_by")
  else true

/-- Payload well-formedness for the type dispatch. -/
def wfTypedPayloads (fs : List (String × JsValue)) : Bool :=
  match objGet fs "type" with
  | JsValue.vStr t => wfByTag t fs
  | _ => true

/-- A property value on which the typed extractor runs to completion: either
it never reaches the type dispatch (nullish / primitive / missing or falsy
type tag), or its tagged payload is well-formed where the extractor
dereferences it unguarded. -/
def wfProperty (property : JsValue) : Bool :=
  match property with
  | JsValue.vObj fs =>
    if !jsTruthy (objGet fs "type") then true
    else wfTypedPayloads fs
  | _ => true

/-- The type tags the extractor's switch recognizes. -/
def recognizedTypeTags : List String :=
  ["title", "rich_text", "select", "status", "relation", "rollup", "number",
   "checkbox", "date", "url", "email", "phone_number", "multi_select", "people",
   "files", "formula", "created_time", "created_by", "last_edited_time",
   "last_edited_by"]

/-- A property whose declared type the extractor does not recognize: no type
member at all (or a non-object / nullish property), a non-string type tag, or
a string tag outside the recognized list. -/
def unrecognizedType (property : JsValue) : Bool :=
  match property with
  | JsValue.vObj fs =>
    match objGet fs "type" with
    | JsValue.vStr t => !(recognizedTypeTags.contains t)
    | _ => true
  | _ => true

lemma itemPlainText_ok (item : JsValue) (h : jsNullish item = false) :
    (itemPlainText item).isOk = true := by
  cases item <;> simp_all [jsNullish, itemPlainText, Except.isOk, Except.toBool]

lemma itemsPlainTexts_ok (items : List JsValue)
    (h : items.all (fun i => !jsNullish i) = true) :
    (itemsPlainTexts items).isOk = true := by
  induction items with
  | nil => rfl
  | cons hd tl ih =>
    rw [List.all_cons] at h
    rcases (Bool.and_eq_true _ _).mp h with ⟨h1, h2⟩
    have hh := itemPlainText_ok hd (by simpa using h1)
    unfold itemsPlainTexts
    cases he : itemPlainText hd with
    | error e => rw [he] at hh; exact absurd hh (by simp [Except.isOk, Except.toBool])
    | ok s =>
      have ht := ih h2
      cases ht' : itemsPlainTexts tl with
      | error e => rw [ht'] at ht; exact absurd ht (by simp [Except.isOk, Except.toBool])
      | ok ss => simp [he, ht', Except.isOk, Except.toBool, Bind.bind, Except.bind]

lemma extractTitleValue_ok (ta : JsValue) (h : wfTextPayload ta = true) :
    (extractTitleValue ta).isOk = true := by
  unfold wfTextPayload at h
  unfold extractTitleValue
  by_cases htr : jsTruthy ta = true
  · rw [if_neg (by simp [htr])] at h
    rw [if_neg (by simp [htr])]
    cases ta with
    | vArr items =>
      cases items with
      | nil => rfl
      | cons hd tl =>
        have := itemsPlainTexts_ok (hd :: tl) h
        cases he : itemsPlainTexts (hd :: tl) with
        | error e => rw [he] at this; exact absurd this (by simp [Except.isOk, Except.toBool])
        | ok parts => simp [he, Except.isOk, Except.toBool, Bind.bind, Except.bind]
    | vUndef => simp at h
    | vNull => simp at h
    | vBool b => simp at h
    | vNum n => simp at h
    | vStr s => simp at h
    | vObj fs => simp at h
  · rw [if_pos (by simp [htr])]; rfl

lemma jsMapFieldItems_ok (fieldName : String) (items : List JsValue)
    (h : items.all (fun i => !jsNullish i) = true) :
    (jsMapFieldItems fieldName items).isOk = true := by
  induction items with
  | nil => rfl
  | cons hd tl ih =>
    rw [List.all_cons] at h
    rcases (Bool.and_eq_true _ _).mp h with ⟨h1, h2⟩
    have ht := ih h2
    unfold jsMapFieldItems
    cases ht' : jsMapFieldItems fieldName tl with
    | error e => rw [ht'] at ht; exact absurd ht (by simp [Except.isOk, Except.toBool])
    | ok vs =>
      cases hd <;>
        simp_all [jsNullish, ht', Except.isOk, Except.toBool, Bind.bind, Except.bind]

lemma jsMapField_ok (fieldName : String) (arr : JsValue)
    (h : wfMapPayload arr = true) : (jsMapField fieldName arr).isOk = true := by
  unfold wfMapPayload at h
  unfold jsMapField
  cases arr with
  | vArr items =>
    have := jsMapFieldItems_ok fieldName items h
    cases he : jsMapFieldItems fieldName items with
    | error e => rw [he] at this; exact absurd this (by simp [Except.isOk, Except.toBool])
    | ok vs => simp [he, Except.isOk, Except.toBool, Bind.bind, Except.bind]
  | vUndef => simp at h
  | vNull => simp at h
  | vBool b => simp at h
  | vNum n => simp at h
  | vStr s => simp at h
  | vObj fs => simp at h

lemma rollupItemValue_ok (ifs : List (String × JsValue))
    (h : wfRollupItem (JsValue.vObj ifs) = true) :
    (rollupItemValue ifs).isOk = true := by
  have h1 : (match objGet ifs "type" with
      | JsValue.vStr "title" => wfTextPayload (objGet ifs "title")
      | JsValue.vStr "rich_text" => wfTextPayload (objGet ifs "rich_text")
      | _ => true) = true := by
    simpa [wfRollupItem] using h
  unfold rollupItemValue
  split
  · rename_i heq
    rw [heq] at h1
    exact extractTitleValue_ok _ h1
  · rename_i heq
    rw [heq] at h1
    exact extractTitleValue_ok _ h1
  · rfl
  · rfl

lemma rollupItems_ok (items : List JsValue)
    (h : items.all wfRollupItem = true) : (rollupItems items).isOk = true := by
  induction items with
  | nil => rfl
  | cons hd tl ih =>
    rw [List.all_cons] at h
    rcases (Bool.and_eq_true _ _).mp h with ⟨h1, h2⟩
    have ht := ih h2
    unfold rollupItems
    cases ht' : rollupItems tl with
    | error e => rw [ht'] at ht; exact absurd ht (by simp [Except.isOk, Except.toBool])
    | ok vs =>
      cases hd with
      | vUndef => simp [wfRollupItem] at h1
      | vNull => simp [wfRollupItem] at h1
      | vObj ifs =>
        have hv := rollupItemValue_ok ifs h1
        cases hh : rollupItemValue ifs with
        | error e => rw [hh] at hv; exact absurd hv (by simp [Except.isOk, Except.toBool])
        | ok v => simp [hh, ht', Except.isOk, Except.toBool, Bind.bind, Except.bind]
      | vBool b => simp [ht', Except.isOk, Except.toBool, Bind.bind, Except.bind]
      | vNum n => simp [ht', Except.isOk, Except.toBool, Bind.bind, Except.bind]
      | vStr s => simp [ht', Except.isOk, Except.toBool, Bind.bind, Except.bind]
      | vArr elems => simp [ht', Except.isOk, Except.toBool, Bind.bind, Except.bind]

lemma extractRollupArray_ok (rfs : List (String × JsValue))
    (h : wfRollupArray rfs = true) : (extractRollupArray rfs).isOk = true := by
  unfold wfRollupArray at h
  unfold extractRollupArray
  by_cases harr : jsTruthy (objGet rfs "array") = true
  · rw [if_neg (by simp [harr])] at h
    rw [if_neg (by simp [harr])]
    cases harr2 : objGet rfs "array" with
    | vArr items =>
      rw [harr2] at h
      cases items with
      | nil => rfl
      | cons i is =>
        have hall : ((i :: is).all wfRollupItem) = true := h
        have hok := rollupItems_ok (i :: is) hall
        cases hi : rollupItems (i :: is) with
        | error e =>
          rw [hi] at hok
          exact absurd hok (by simp [Except.isOk, Except.toBool])
        | ok vals =>
          simp [hi, Except.isOk, Except.toBool, Bind.bind, Except.bind]
    | vUndef => rw [harr2] at harr; simp [jsTruthy] at harr
    | vNull => rw [harr2] at harr; simp [jsTruthy] at harr
    | vBool b => rw [harr2] at h; exact absurd h (by simp)
    | vNum n => rw [harr2] at h; exact absurd h (by simp)
    | vStr s => rw [harr2] at h; exact absurd h (by simp)
    | vObj ofs => rw [harr2] at h; exact absurd h (by simp)
  · rw [if_pos (by simp [harr])]
    rfl

lemma extractRollupValue_ok (rollup : JsValue)
    (h : wfRollupPayload rollup = true) : (extractRollupValue rollup).isOk = true := by
  unfold wfRollupPayload at h
  unfold extractRollupValue
  by_cases htr : jsTruthy rollup = true
  · rw [if_neg (by simp [htr])] at h
    rw [if_neg (by simp [htr])]
    cases rollup with
    | vObj rfs =>
      have h' : (match objGet rfs "type" with
          | JsValue.vStr "array" => wfRollupArray rfs
          | _ => true) = true := h
      show (match objGet rfs "type" with
        | JsValue.vStr "array" => extractRollupArray rfs
        | JsValue.vStr "number" => Except.ok (objGet rfs "number")
        | JsValue.vStr "date" => Except.ok (optFieldOr "start" (objGet rfs "date"))
        | _ => Except.ok JsValue.vNull).isOk = true
      split
      · rename_i heq
        rw [heq] at h'
        exact extractRollupArray_ok rfs h'
      · rfl
      · rfl
      · rfl
    | vUndef => simp [jsTruthy] at htr
    | vNull => simp [jsTruthy] at htr
    | vBool b => rfl
    | vNum n => rfl
    | vStr s => rfl
    | vArr elems => rfl
  · rw [if_pos (by simp [htr])]
    rfl

lemma fileEntryValue_ok (file : JsValue) (h : jsNullish file = false) :
    (fileEntryValue file).isOk = true := by
  cases file <;> simp_all [jsNullish, fileEntryValue, Except.isOk, Except.toBool]

lemma fileEntryValues_ok (items : List JsValue)
    (h : items.all (fun i => !jsNullish i) = true) :
    (fileEntryValues items).isOk = true := by
  induction items with
  | nil => rfl
  | cons hd tl ih =>
    rw [List.all_cons] at h
    rcases (Bool.and_eq_true _ _).mp h with ⟨h1, h2⟩
    have hh := fileEntryValue_ok hd (by simpa using h1)
    have ht := ih h2
    unfold fileEntryValues
    cases he : fileEntryValue hd with
    | error e => rw [he] at hh; exact absurd hh (by simp [Except.isOk, Except.toBool])
    | ok v =>
      cases ht' : fileEntryValues tl with
      | error e => rw [ht'] at ht; exact absurd ht (by simp [Except.isOk, Except.toBool])
      | ok vs => simp [he, ht', Except.isOk, Except.toBool, Bind.bind, Except.bind]

lemma extractFilesValue_ok (fa : JsValue) (h : wfFilesPayload fa = true) :
    (extractFilesValue fa).isOk = true := by
  unfold wfFilesPayload at h
  unfold extractFilesValue
  by_cases htr : jsTruthy fa = true
  · rw [if_neg (by simp [htr])] at h
    rw [if_neg (by simp [htr])]
    cases fa with
    | vArr items =>
      cases items with
      | nil => rfl
      | cons i is =>
        have hok := fileEntryValues_ok (i :: is) h
        cases hi : fileEntryValues (i :: is) with
        | error e =>
          rw [hi] at hok
          exact absurd hok (by simp [Except.isOk, Except.toBool])
        | ok vals =>
          simp [hi, Except.isOk, Except.toBool, Bind.bind, Except.bind]
    | vUndef => simp at h
    | vNull => simp at h
    | vBool b => simp at h
    | vNum n => simp at h
    | vStr s => simp at h
    | vObj fs => simp at h
  · rw [if_pos (by simp [htr])]
    rfl

lemma extractFormulaValue_ok (formula : JsValue) :
    (extractFormulaValue formula).isOk = true := by
  unfold extractFormulaValue
  by_cases htr : jsTruthy formula = true
  · rw [if_neg (by simp [htr])]
    cases formula with
    | vObj ffs =>
      show (match objGet ffs "type" with
        | JsValue.vStr "string" => Except.ok (objGet ffs "string")
        | JsValue.vStr "number" => Except.ok (objGet ffs "number")
        | JsValue.vStr "boolean" => Except.ok (objGet ffs "boolean")
        | JsValue.vStr "date" => Except.ok (optFieldOr "start" (objGet ffs "date"))
        | _ => Except.ok JsValue.vNull).isOk = true
      split <;> rfl
    | vUndef => rfl
    | vNull => rfl
    | vBool b => rfl
    | vNum n => rfl
    | vStr s => rfl
    | vArr elems => rfl
  · rw [if_pos (by simp [htr])]
    rfl

lemma dotId_ok (v : JsValue) (h : jsNullish v = false) : (dotId v).isOk = true := by
  cases v <;> simp_all [jsNullish, dotId, Except.isOk, Except.toBool]

lemma extractByTag_ok (t : String) (fs : List (String × JsValue))
    (h : wfByTag t fs = true) : (extractByTag t fs).isOk = true := by
  unfold wfByTag at h
  unfold extractByTag
  by_cases h0 : t = "title"
  · rw [if_pos h0] at h ⊢; exact extractTitleValue_ok _ h
  rw [if_neg h0] at h ⊢
  by_cases h1 : t = "rich_text"
  · rw [if_pos h1] at h ⊢
    show (extractTitleValue (objGet fs "rich_text")).isOk = true
    exact extractTitleValue_ok _ h
  rw [if_neg h1] at h ⊢
  by_cases h2 : t = "select"
  · rw [if_pos h2]; rfl
  rw [if_neg h2] at h ⊢
  by_cases h3 : t = "status"
  · rw [if_pos h3]; rfl
  rw [if_neg h3] at h ⊢
  by_cases h4 : t = "relation"
  · rw [if_pos h4] at h ⊢; exact jsMapField_ok _ _ h
  rw [if_neg h4] at h ⊢
  by_cases h5 : t = "rollup"
  · rw [if_pos h5] at h ⊢; exact extractRollupValue_ok _ h
  rw [if_neg h5] at h ⊢
  by_cases h6 : t = "number"
  · rw [if_pos h6]; rfl
  rw [if_neg h6] at h ⊢
  by_cases h7 : t = "checkbox"
  · rw [if_pos h7]; rfl
  rw [if_neg h7] at h ⊢
  by_cases h8 : t = "date"
  · rw [if_pos h8]; rfl
  rw [if_neg h8] at h ⊢
  by_cases h9 : t = "url"
  · rw [if_pos h9]; rfl
  rw [if_neg h9] at h ⊢
  by_cases h10 : t = "email"
  · rw [if_pos h10]; rfl
  rw [if_neg h10] at h ⊢
  by_cases h11 : t = "phone_number"
  · rw [if_pos h11]; rfl
  rw [if_neg h11] at h ⊢
  by_cases h12 : t = "multi_select"
  · rw [if_pos h12] at h ⊢; exact jsMapField_ok _ _ h
  rw [if_neg h12] at h ⊢
  by_cases h13 : t = "people"
  · rw [if_pos h13] at h ⊢; exact jsMapField_ok _ _ h
  rw [if_neg h13] at h ⊢
  by_cases h14 : t = "files"
  · rw [if_pos h14] at h ⊢; exact extractFilesValue_ok _ h
  rw [if_neg h14] at h ⊢
  by_cases h15 : t = "formula"
  · rw [if_pos h15]; exact extractFormulaValue_ok _
  rw [if_neg h15] at h ⊢
  by_cases h16 : t = "created_time"
  · rw [if_pos h16]; rfl
  rw [if_neg h16] at h ⊢
  by_cases h17 : t = "created_by"
  · rw [if_pos h17] at h ⊢; exact dotId_ok _ (by simpa using h)
  rw [if_neg h17] at h ⊢
  by_cases h18 : t = "last_edited_time"
  · rw [if_pos h18]; rfl
  rw [if_neg h18] at h ⊢
  by_cases h19 : t = "last_edited_by"
  · rw [if_pos h19] at h ⊢; exact dotId_ok _ (by simpa using h)
  rw [if_neg h19] at h ⊢
  rfl
lemma extractTypedValue_ok (fs : List (String × JsValue))
    (h : wfTypedPayloads fs = true) : (extractTypedValue fs).isOk = true := by
  unfold wfTypedPayloads at h
  unfold extractTypedValue
  cases hty : objGet fs "type" with
  | vStr t =>
    rw [hty] at h
    exact extractByTag_ok t fs h
  | vUndef => rfl
  | vNull => rfl
  | vBool b => rfl
  | vNum n => rfl
  | vArr elems => rfl
  | vObj ofs => rfl

lemma extractByTag_unrecognized (t : String) (fs : List (String × JsValue))
    (h : recognizedTypeTags.contains t = false) :
    extractByTag t fs = Except.ok JsValue.vNull := by
  have hmem : t ∉ recognizedTypeTags := fun hm =>
    absurd (show recognizedTypeTags.contains t = true from List.elem_iff.mpr hm)
      (by rw [h]; simp)
  unfold extractByTag
  rw [if_neg (fun he : t = "title" => hmem (he ▸ (by decide : ("title" : String) ∈ recognizedTypeTags)))]
  rw [if_neg (fun he : t = "rich_text" => hmem (he ▸ (by decide : ("rich_text" : String) ∈ recognizedTypeTags)))]
  rw [if_neg (fun he : t = "select" => hmem (he ▸ (by decide : ("select" : String) ∈ recognizedTypeTags)))]
  rw [if_neg (fun he : t = "status" => hmem (he ▸ (by decide : ("status" : String) ∈ recognizedTypeTags)))]
  rw [if_neg (fun he : t = "relation" => hmem (he ▸ (by decide : ("relation" : String) ∈ recognizedTypeTags)))]
  rw [if_neg (fun he : t = "rollup" => hmem (he ▸ (by decide : ("rollup" : String) ∈ recognizedTypeTags)))]
  rw [if_neg (fun he : t = "number" => hmem (he ▸ (by decide : ("number" : String) ∈ recognizedTypeTags)))]
  rw [if_neg (fun he : t = "checkbox" => hmem (he ▸ (by decide : ("checkbox" : String) ∈ recognizedTypeTags)))]
  rw [if_neg (fun he : t = "date" => hmem (he ▸ (by decide : ("date" : String) ∈ recognizedTypeTags)))]
  rw [if_neg (fun he : t = "url" => hmem (he ▸ (by decide : ("url" : String) ∈ recognizedTypeTags)))]
  rw [if_neg (fun he : t = "email" => hmem (he ▸ (by decide : ("email" : String) ∈ recognizedTypeTags)))]
  rw [if_neg (fun he : t = "phone_number" => hmem (he ▸ (by decide : ("phone_number" : String) ∈ recognizedTypeTags)))]
  rw [if_neg (fun he : t = "multi_select" => hmem (he ▸ (by decide : ("multi_select" : String) ∈ recognizedTypeTags)))]
  rw [if_neg (fun he : t = "people" => hmem (he ▸ (by decide : ("people" : String) ∈ recognizedTypeTags)))]
  rw [if_neg (fun he : t = "files" => hmem (he ▸ (by decide : ("files" : String) ∈ recognizedTypeTags)))]
  rw [if_neg (fun he : t = "formula" => hmem (he ▸ (by decide : ("formula" : String) ∈ recognizedTypeTags)))]
  rw [if_neg (fun he : t = "created_time" => hmem (he ▸ (by decide : ("created_time" : String) ∈ recognizedTypeTags)))]
  rw [if_neg (fun he : t = "created_by" => hmem (he ▸ (by decide : ("created_by" : String) ∈ recognizedTypeTags)))]
  rw [if_neg (fun he : t = "last_edited_time" => hmem (he ▸ (by decide : ("last_edited_time" : String) ∈ recognizedTypeTags)))]
  rw [if_neg (fun he : t = "last_edited_by" => hmem (he ▸ (by decide : ("last_edited_by" : String) ∈ recognizedTypeTags)))]

/-- Claim C6 (amended): the typed property extractor is total on every
property whose unguarded payloads are well-shaped (`wfProperty`) — including
properties with a missing or falsy type and properties of unrecognized type,
which map to `null` — but it is NOT total outright: a property whose declared
type is `relation`, `multi_select`, `people`, `created_by` or
`last_edited_by` (or a list payload with nullish elements, or a truthy
non-array text/files payload) with a missing or malformed payload throws a
`TypeError` (see the counterexample). -/
theorem C6_amended (property : JsValue) :
    (wfProperty property = true → (extractPropertyValue property).isOk = true)
    ∧ (unrecognizedType property = true
        → extractPropertyValue property = Except.ok JsValue.vNull) := by
  constructor
  · intro hwf
    cases property with
    | vObj fs =>
      have hwf' : (if (!jsTruthy (objGet fs "type")) = true then true
          else wfTypedPayloads fs) = true := hwf
      show (if (!jsTruthy (objGet fs "type")) = true then Except.ok JsValue.vNull
        else extractTypedValue fs).isOk = true
      by_cases hty : jsTruthy (objGet fs "type") = true
      · rw [if_neg (by simp [hty])] at hwf'
        rw [if_neg (by simp [hty])]
        exact extractTypedValue_ok fs hwf'
      · rw [if_pos (by simp [hty])]; rfl
    | vUndef => rfl
    | vNull => rfl
    | vBool b => rfl
    | vNum n => rfl
    | vStr s => rfl
    | vArr elems => rfl
  · intro hun
    cases property with
    | vObj fs =>
      have hun' : (match objGet fs "type" with
          | JsValue.vStr t => !(recognizedTypeTags.contains t)
          | _ => true) = true := hun
      show (if (!jsTruthy (objGet fs "type")) = true then Except.ok JsValue.vNull
        else extractTypedValue fs) = Except.ok JsValue.vNull
      by_cases hty : jsTruthy (objGet fs "type") = true
      · rw [if_neg (by simp [hty])]
        unfold extractTypedValue
        cases hty2 : objGet fs "type" with
        | vStr t =>
          rw [hty2] at hun'
          have hcon : recognizedTypeTags.contains t = false := by
            have hb : (!(recognizedTypeTags.contains t)) = true := hun'
            simpa using hb
          exact extractByTag_unrecognized t fs hcon
        | vUndef => rw [hty2] at hty
        | vNull => rw [hty2] at hty
        | vBool b => rfl
        | vNum n => rfl
        | vArr elems => rfl
        | vObj ofs => rfl
      · rw [if_pos (by simp [hty])]
    | vUndef => rfl
    | vNull => rfl
    | vBool b => rfl
    | vNum n => rfl
    | vStr s => rfl
    | vArr elems => rfl

/-- Claim C6 witness: the amended theorem applied to two concrete inputs — a
well-formed `title` property extracts a string, and a property of unrecognized
declared type maps to `null`. -/
theorem C6_amended_witness :
    (extractPropertyValue (JsValue.vObj [("type", JsValue.vStr "title"),
        ("title", JsValue.vArr [JsValue.vObj
          [("plain_text", JsValue.vStr "Test Page Title")]])])).isOk = true
    ∧ extractPropertyValue (JsValue.vObj [("type", JsValue.vStr "unknown_type"),
        ("unknown_data", JsValue.vStr "some value")]) = Except.ok JsValue.vNull :=
  ⟨(C6_amended _).1 (by rfl), (C6_amended _).2 (by rfl)⟩

/-- Claim C6 counterexample: a property declaring `type: "relation"` whose
`relation` payload is absent (malformed / partially populated) makes the
typed extractor dereference `undefined.map` and throw a `TypeError` — the
extractor is not total, and `extractProperties` fails on the whole record. -/
theorem C6_counterexample :
    extractPropertyValue (JsValue.vObj [("type", JsValue.vStr "relation")])
      = Except.error "TypeError: cannot read map of undefined"
    ∧ (extractProperties (some [("Rel",
        JsValue.vObj [("type", JsValue.vStr "relation")])])).isOk = false :=
  ⟨rfl, rfl⟩
